import Mathlib

/-!
Verification of the Turkish POS-tagger facade (`modern_pos_tagger.py`).

The development shallow-embeds the facade class `ModernTurkishPOSTagger`:
pure string helpers mirror the Python string primitives actually used
(`str.lower`, `str.split()`, `str.strip`, `in` substring / list membership,
`str.endswith`, `str.title`, `str.isdigit`), the two rule classifiers
`_get_simple_pos_tag` / `_get_enhanced_pos_tag` are translated branch by
branch, and the stateful / fallible parts (model loading, backend dispatch,
the external pipeline and serialized-tagger calls) are modelled with an
explicit environment record and `Except`-valued functions, where
`Except.error` stands for a raised Python exception.

Unicode notes: Python's `str.lower`/`str.upper`/`str.isalpha`/`str.isupper`
are modelled on the alphabet the repository actually uses — ASCII plus the
Turkish letters ç/ğ/ı/ö/ş/ü and their capitals ('İ' is approximated by the
single char 'i'); `str.split()`/`str.strip()` whitespace is the six ASCII
whitespace characters; `str.isdigit` is modelled on ASCII digits.
-/

namespace POSTagger

/-- Python exception classes that the translated code can raise.
`Except.error` with one of these stands for a raised exception. -/
inductive PyErr where
  | typeError
  | fileNotFoundError
  | keyError
  | indexError
  | attributeError
  | otherError
deriving DecidableEq

/-- The uppercase-to-lowercase table of Python `str.lower` on the
repository's alphabet (ASCII letters plus Turkish capitals;
'İ' approximated by 'i'). -/
def lowerTable : List (Char × Char) :=
  [('A', 'a'), ('B', 'b'), ('C', 'c'), ('D', 'd'), ('E', 'e'), ('F', 'f'),
   ('G', 'g'), ('H', 'h'), ('I', 'i'), ('J', 'j'), ('K', 'k'), ('L', 'l'),
   ('M', 'm'), ('N', 'n'), ('O', 'o'), ('P', 'p'), ('Q', 'q'), ('R', 'r'),
   ('S', 's'), ('T', 't'), ('U', 'u'), ('V', 'v'), ('W', 'w'), ('X', 'x'),
   ('Y', 'y'), ('Z', 'z'),
   ('Ç', 'ç'), ('Ğ', 'ğ'), ('İ', 'i'), ('Ö', 'ö'), ('Ş', 'ş'), ('Ü', 'ü')]

/-- Python `str.lower` on one character: characters outside the table are
unchanged. -/
def pyLower (c : Char) : Char := (List.lookup c lowerTable).getD c

/-- The lowercase-to-uppercase table of Python `str.upper` on the
repository's alphabet ('i' and 'ı' both map to 'I' as in non-locale
Python). -/
def upperTable : List (Char × Char) :=
  [('a', 'A'), ('b', 'B'), ('c', 'C'), ('d', 'D'), ('e', 'E'), ('f', 'F'),
   ('g', 'G'), ('h', 'H'), ('i', 'I'), ('j', 'J'), ('k', 'K'), ('l', 'L'),
   ('m', 'M'), ('n', 'N'), ('o', 'O'), ('p', 'P'), ('q', 'Q'), ('r', 'R'),
   ('s', 'S'), ('t', 'T'), ('u', 'U'), ('v', 'V'), ('w', 'W'), ('x', 'X'),
   ('y', 'Y'), ('z', 'Z'),
   ('ç', 'Ç'), ('ğ', 'Ğ'), ('ı', 'I'), ('ö', 'Ö'), ('ş', 'Ş'), ('ü', 'Ü')]

/-- Python `str.upper` on one character (used by `str.title`). -/
def pyUpper (c : Char) : Char := (List.lookup c upperTable).getD c

/-- Python `str.lower` on a whole string. -/
def pyLowerStr (s : String) : String := String.mk (s.data.map pyLower)

/-- Single-character `str.isupper`, on the repository's alphabet. -/
def pyIsUpper (c : Char) : Bool :=
  ('A' ≤ c && c ≤ 'Z') || c = 'Ç' || c = 'Ğ' || c = 'İ' || c = 'Ö' || c = 'Ş' || c = 'Ü'

/-- Python `str.isalpha` on one character (used by `str.title`),
on the repository's alphabet. -/
def pyIsAlpha (c : Char) : Bool :=
  c.isAlpha || c = 'ç' || c = 'ğ' || c = 'ı' || c = 'ö' || c = 'ş' || c = 'ü'
    || c = 'Ç' || c = 'Ğ' || c = 'İ' || c = 'Ö' || c = 'Ş' || c = 'Ü'

/-- Whitespace as recognized by Python's `str.split()` / `str.strip()`
(ASCII subset). -/
def pyIsSpace (c : Char) : Bool :=
  c = ' ' || c = '\t' || c = '\n' || c = '\x0d' || c = '\x0b' || c = '\x0c'

/-- Python's substring test `needle in hay` on character lists
(`"" in hay` is `True`). -/
def isSubstring (needle : List Char) : List Char → Bool
  | [] => needle.isEmpty
  | c :: t => needle.isPrefixOf (c :: t) || isSubstring needle t

/-- Python's `needle in hay` for strings. -/
def pyInStr (needle hay : String) : Bool := isSubstring needle.data hay.data

/-- Helper for `pySplit`: accumulates the current (reversed) word. -/
def splitWsAux : List Char → List Char → List String
  | [], acc => if acc.isEmpty then [] else [String.mk acc.reverse]
  | c :: cs, acc =>
    if pyIsSpace c then
      if acc.isEmpty then splitWsAux cs []
      else String.mk acc.reverse :: splitWsAux cs []
    else splitWsAux cs (c :: acc)

/-- Python `sentence.split()`: split on whitespace runs, dropping empties. -/
def pySplit (s : String) : List String := splitWsAux s.data []

/-- Python `s.strip()`. -/
def pyStrip (s : String) : String :=
  String.mk (((s.data.dropWhile pyIsSpace).reverse.dropWhile pyIsSpace).reverse)

/-- Helper for `pyTitle`; the flag records whether the previous character
was alphabetic. -/
def pyTitleAux : Bool → List Char → List Char
  | _, [] => []
  | prev, c :: cs =>
    (if pyIsAlpha c then (if prev then pyLower c else pyUpper c) else c)
      :: pyTitleAux (pyIsAlpha c) cs

/-- Python `s.title()` (used on serialized-model tags). -/
def pyTitle (s : String) : String := String.mk (pyTitleAux false s.data)

/-- Python `s.isdigit()` (ASCII digits; empty string is not a digit string). -/
def pyIsDigitStr (s : String) : Bool := !s.data.isEmpty && s.data.all Char.isDigit

/-- Python `wl.endswith((s1, ..., sn))`: some listed suffix matches. -/
def endsWithAny (wl : String) (sfx : List String) : Bool :=
  sfx.any (fun suf => suf.data.isSuffixOf wl.data)

/-! ## The literal word lists and punctuation string of the source -/

/-- The punctuation literal `'.,!?;:()[]\x7b\x7d"\''` shared by
`_get_simple_pos_tag` (line 376) and `_get_enhanced_pos_tag` (line 298). -/
def punctStr : String := ".,!?;:()[]\x7b\x7d\"'"

/-- Proper-noun / place-name list of `_get_simple_pos_tag` (lines 380-381). -/
def properNounWords : List String :=
  ["ali", "mehmet", "ayşe", "fatma", "ahmet", "zeynep", "emre", "elif", "murat", "selin",
   "türkiye", "istanbul", "ankara", "izmir", "bursa", "antalya", "adana", "gaziantep"]

/-- Pronoun list of `_get_simple_pos_tag` (lines 386-388; the source lists
'onlar' twice and the duplicate is kept). -/
def simplePronounWords : List String :=
  ["ben", "sen", "o", "biz", "siz", "onlar", "bu", "şu", "bunlar", "şunlar", "onlar",
   "bunu", "şunu", "onu", "benim", "senin", "onun", "bizim", "sizin", "onların",
   "bana", "sana", "ona", "bize", "size", "onlara"]

/-- Conjunction list of `_get_simple_pos_tag` (line 392). -/
def simpleConjWords : List String :=
  ["ve", "ile", "ama", "fakat", "çünkü", "ki", "da", "de", "ta", "te", "ancak", "lakin"]

/-- Adverb list of `_get_simple_pos_tag` (lines 396-398). -/
def simpleAdvWords : List String :=
  ["çok", "az", "daha", "en", "şimdi", "sonra", "önce", "bugün", "yarın", "dün",
   "hep", "hiç", "her zaman", "bazen", "genellikle", "nadiren", "zaten", "artık",
   "hemen", "yavaş", "hızlı", "sessizce", "dikkatli"]

/-- Postposition list (identical at lines 402 and 317). -/
def postpWords : List String :=
  ["için", "gibi", "kadar", "beri", "sonra", "önce", "karşı", "rağmen"]

/-- Determiner list of `_get_simple_pos_tag` (line 406). -/
def detWords : List String :=
  ["bir", "hiç", "her", "bazı", "bütün", "tüm", "kimi", "hangi"]

/-- Number-word list of `_get_simple_pos_tag` (line 410). -/
def numWords : List String :=
  ["sıfır", "bir", "iki", "üç", "dört", "beş", "altı", "yedi", "sekiz", "dokuz", "on"]

/-- Adjective word list of `_get_simple_pos_tag` (lines 429-430). -/
def simpleAdjWords : List String :=
  ["güzel", "büyük", "küçük", "iyi", "kötü", "yeni", "eski", "genç", "yaşlı",
   "uzun", "kısa", "yüksek", "alçak", "geniş", "dar", "sıcak", "soğuk"]

/-- Common-noun list of `_get_simple_pos_tag` (lines 434-436). -/
def commonNounWords : List String :=
  ["adam", "kadın", "çocuk", "anne", "baba", "kardeş", "arkadaş", "öğretmen",
   "doktor", "polis", "ev", "okul", "hastane", "park", "bahçe", "kitap", "masa",
   "sandalye", "araba", "otobüs", "uçak", "tren", "su", "yemek", "ekmek"]

/-- Pronoun list of `_get_enhanced_pos_tag` (lines 302-304). -/
def enhPronounWords : List String :=
  ["ben", "sen", "o", "biz", "siz", "onlar", "bu", "şu", "bunlar", "şunlar",
   "bunu", "şunu", "onu", "benim", "senin", "onun", "bizim", "sizin", "onların",
   "bana", "sana", "ona", "bize", "size", "onlara"]

/-- Conjunction list of `_get_enhanced_pos_tag` (line 308). -/
def enhConjWords : List String :=
  ["ve", "ile", "ama", "fakat", "çünkü", "ki", "da", "de", "ta", "te", "ancak"]

/-- Adverb list of `_get_enhanced_pos_tag` (lines 312-313). -/
def enhAdvWords : List String :=
  ["çok", "az", "daha", "en", "şimdi", "sonra", "önce", "bugün", "yarın", "dün",
   "hep", "hiç", "her", "bazen", "genellikle", "zaten", "artık", "hemen"]

/-- Adjective word list of `_get_enhanced_pos_tag` (line 344). -/
def enhAdjWords : List String :=
  ["güzel", "büyük", "küçük", "iyi", "kötü", "yeni", "eski"]

/-! ## The two rule classifiers -/

/-- The verb-suffix condition of `_get_simple_pos_tag` (lines 414-421). -/
def simpleVerbCond (wl : String) : Bool :=
  endsWithAny wl ["mak", "mek"]
    || endsWithAny wl ["yor", "ıyor", "iyor", "uyor", "üyor"]
    || endsWithAny wl ["du", "dı", "tu", "tı"]
    || endsWithAny wl ["ecek", "acak"]
    || endsWithAny wl ["miş", "muş", "müş"]
    || endsWithAny wl ["di", "dı", "du", "dü"]
    || endsWithAny wl ["sa", "se"]
    || endsWithAny wl ["sin", "sın", "sun", "sün"]

/-- The adjective condition of `_get_simple_pos_tag` (lines 425-430). -/
def simpleAdjCond (wl : String) : Bool :=
  endsWithAny wl ["lı", "li", "lu", "lü"]
    || endsWithAny wl ["sız", "siz", "suz", "süz"]
    || endsWithAny wl ["sal", "sel"]
    || endsWithAny wl ["ik", "ık"]
    || simpleAdjWords.contains wl

/-- The verb-suffix condition of `_get_enhanced_pos_tag` (lines 321-326). -/
def enhVerbCond (wl : String) : Bool :=
  endsWithAny wl ["yor", "ıyor", "iyor", "uyor", "üyor"]
    || endsWithAny wl ["du", "dı", "tu", "tı", "dü", "di"]
    || endsWithAny wl ["ecek", "acak"]
    || endsWithAny wl ["miş", "muş", "müş", "mış"]
    || endsWithAny wl ["sa", "se"]
    || endsWithAny wl ["mak", "mek"]

/-- The adjective condition of `_get_enhanced_pos_tag` (lines 342-344). -/
def enhAdjCond (wl : String) : Bool :=
  endsWithAny wl ["lı", "li", "lu", "lü"]
    || endsWithAny wl ["sız", "siz", "suz", "süz"]
    || enhAdjWords.contains wl

/-- The tail of `_get_simple_pos_tag` (lines 386-441): every branch from the
pronoun list on depends only on `word_lower`, so it is factored out over the
lowered word. -/
def getSimplePosTagRest (wl : String) : String :=
  if simplePronounWords.contains wl then "Pron"
  else if simpleConjWords.contains wl then "Conj"
  else if simpleAdvWords.contains wl then "Adv"
  else if postpWords.contains wl then "Postp"
  else if detWords.contains wl then "Det"
  else if pyIsDigitStr wl || numWords.contains wl then "Num"
  else if simpleVerbCond wl then "Verb"
  else if simpleAdjCond wl then "Adj"
  else if commonNounWords.contains wl then "Noun"
  else "Noun"

/-- `_get_simple_pos_tag` (lines 369-441). The proper-noun branch evaluates
`word[0]` when the name-list test fails, which raises `IndexError` on an
empty word (modelled by `Except.error .indexError`). -/
def getSimplePosTag (word : String) : Except PyErr String :=
  let wl := pyLowerStr word
  if pyInStr word punctStr then .ok "Punc"
  else if properNounWords.contains wl then .ok "Noun"
  else
    match word.data with
    | [] => .error .indexError
    | c :: _ =>
      if pyIsUpper c && decide (word.length > 2) then .ok "Noun"
      else .ok (getSimplePosTagRest wl)

/-- The tail of `_get_enhanced_pos_tag` (lines 302-349): every branch from
the pronoun list on depends only on `word_lower`. -/
def getEnhancedPosTagRest (wl : String) : String :=
  if enhPronounWords.contains wl then "Pron"
  else if enhConjWords.contains wl then "Conj"
  else if enhAdvWords.contains wl then "Adv"
  else if postpWords.contains wl then "Postp"
  else if enhVerbCond wl then "Verb"
  else if endsWithAny wl ["ından", "inden", "undan", "ünden"] then "Noun_Abl"
  else if endsWithAny wl ["ına", "ine", "una", "üne"] then "Noun_Dat"
  else if endsWithAny wl ["ını", "ini", "unu", "ünü"] then "Noun_Acc"
  else if endsWithAny wl ["ın", "in", "un", "ün"] then "Noun_Gen"
  else if endsWithAny wl ["da", "de", "ta", "te"] then "Noun_Loc"
  else if enhAdjCond wl then "Adj"
  else "Noun_Nom"

/-- `_get_enhanced_pos_tag` (lines 291-349); total. -/
def getEnhancedPosTag (word : String) : String :=
  if pyInStr word punctStr then "Punc"
  else getEnhancedPosTagRest (pyLowerStr word)

/-! ## State, environment, loaders -/

/-- One aggregated output entry of a token-classification pipeline:
the two result-dict fields the code reads (`'word'`, `'entity_group'`). -/
structure Entry where
  word : String
  entity_group : String
deriving DecidableEq

/-- The fine-tuned model's `metadata.json` as far as the code consumes it:
the `id2tag` mapping (a JSON object, modelled as an association list with
distinct keys assumed nowhere), and a flag recording whether the
`eval_results` fields read while logging (lines 144-145) are present and
well-formed (their absence raises `KeyError` inside the load's `try`). -/
structure Metadata where
  id2tag : List (String × String)
  evalFieldsOk : Bool
deriving DecidableEq

/-- The mutable attributes of `ModernTurkishPOSTagger` that tagging reads.
`none` in a pipeline/tagger slot covers both an attribute that was never
set (reading it raises `AttributeError`) and, for `fineTunedPipeline`, the
explicit `None` of simulation mode — in `_tag_fine_tuned` both roads lead
to the same enhanced-simulation output, so they are not distinguished. -/
structure TaggerState where
  modelType : String
  legacyTagger : Option Unit := none
  transformerPipeline : Option Unit := none
  fineTunedPipeline : Option Unit := none
  fineTunedMetadata : Option Metadata := none

/-- The external world: file system, YAML/JSON loading, model construction
and the behaviour of the two loaded pipelines and the serialized Brill
tagger. Each `Except` value is the outcome Python would observe. -/
structure Env where
  /-- `os.path.exists(self.legacy_model_path)` -/
  legacyFileExists : Bool
  /-- outcome of `yaml.load` on the legacy file; `ok b` loads an object,
  `b` = `isinstance(obj, BrillTagger)` -/
  legacyYamlLoad : Except PyErr Bool
  /-- `os.path.exists(self.fine_tuned_model_path)` -/
  ftDirExists : Bool
  /-- `os.path.exists(metadata_path)` -/
  ftMetadataFileExists : Bool
  /-- outcome of opening and `json.load`-ing `metadata.json` -/
  ftMetadataLoad : Except PyErr Metadata
  /-- any of the recognized weight files exists (line 121-122) -/
  ftWeightsExist : Bool
  /-- outcome of tokenizer/model/pipeline construction for the fine-tuned
  model (lines 132-141) -/
  ftPipelineCreate : Except PyErr Unit
  /-- outcome of tokenizer/pipeline construction in
  `_load_transformer_model` (for either pretrained model name) -/
  transformerCreate : Except PyErr Unit
  /-- behaviour of `self.transformer_pipeline(sentence)` -/
  transformerRun : String → Except PyErr (List Entry)
  /-- behaviour of `self.fine_tuned_pipeline(sentence)` -/
  ftPipelineRun : String → Except PyErr (List Entry)
  /-- behaviour of `self.legacy_tagger.tag([w])` on a one-word sentence:
  a list of (word, tag-or-None) pairs -/
  brillTag : String → List (String × Option String)

/-- `_load_legacy_model` (lines 87-104). Returns the (possibly partially
mutated) state plus the raised exception, if any. `self.legacy_tagger` is
assigned before the `isinstance` check, as in the source. -/
def loadLegacyModel (env : Env) (t : TaggerState) : TaggerState × Option PyErr :=
  if !env.legacyFileExists then (t, some .fileNotFoundError)
  else
    match env.legacyYamlLoad with
    | .error e => (t, some e)
    | .ok isBrill =>
      let t1 := { t with legacyTagger := some () }
      if !isBrill then (t1, some .typeError)
      else ({ t1 with modelType := "legacy" }, none)

/-- `_load_fine_tuned_model` (lines 106-150). -/
def loadFineTunedModel (env : Env) (t : TaggerState) : TaggerState × Option PyErr :=
  if !env.ftDirExists then (t, some .fileNotFoundError)
  else if !env.ftMetadataFileExists then (t, some .fileNotFoundError)
  else
    match env.ftMetadataLoad with
    | .error e => (t, some e)
    | .ok md =>
      let t1 := { t with fineTunedMetadata := some md }
      if !env.ftWeightsExist then
        let t2 := { t1 with fineTunedPipeline := none }
        if md.evalFieldsOk then (t2, none) else (t2, some .keyError)
      else
        match env.ftPipelineCreate with
        | .error e => (t1, some e)
        | .ok _ =>
          let t2 := { t1 with fineTunedPipeline := some () }
          if md.evalFieldsOk then (t2, none) else (t2, some .keyError)

/-- `_load_transformer_model` (lines 152-178). -/
def loadTransformerModel (env : Env) (t : TaggerState) : TaggerState × Option PyErr :=
  match env.transformerCreate with
  | .error e => (t, some e)
  | .ok _ => ({ t with transformerPipeline := some () }, none)

/-- The dispatch inside `_load_model`'s `try` (lines 76-81). -/
def loadAttempt (env : Env) (t : TaggerState) : TaggerState × Option PyErr :=
  if t.modelType = "legacy" then loadLegacyModel env t
  else if t.modelType = "fine_tuned" then loadFineTunedModel env t
  else loadTransformerModel env t

/-- `_load_model` (lines 73-85): on any exception from the attempted load,
fall back to `_load_legacy_model` (whose own exception, if any, propagates). -/
def loadModel (env : Env) (t : TaggerState) : TaggerState × Option PyErr :=
  match loadAttempt env t with
  | (t1, none) => (t1, none)
  | (t1, some _) => loadLegacyModel env t1

/-- The attribute initialization of `__init__` before `_load_model`. -/
def initState (modelType : String) : TaggerState := { modelType := modelType }

/-- `__init__` (lines 34-71): `some e` in the second component means
construction raised. -/
def construct (env : Env) (modelType : String) : TaggerState × Option PyErr :=
  loadModel env (initState modelType)

/-! ## The backend tagging routines -/

/-- Tag formatting of `_tag_legacy` (line 223): `tag.title()` when the tag
is a string, `"UNKNOWN"` when it is `None`. -/
def formatLegacyTag : Option String → String
  | some tg => pyTitle tg
  | none => "UNKNOWN"

/-- `_tag_legacy` (lines 208-226). Reading the unset `self.legacy_tagger`
attribute raises `AttributeError`. -/
def tagLegacy (env : Env) (t : TaggerState) (s : String) :
    Except PyErr (List (String × String)) :=
  match t.legacyTagger with
  | none => .error .attributeError
  | some _ =>
    let words := pySplit s
    let tagged := words.map (fun w =>
      match env.brillTag (pyLowerStr w) with
      | [] => (pyLowerStr w, (none : Option String))
      | r :: _ => r)
    .ok (tagged.enum.map (fun p => (words.getD p.1 p.2.1, formatLegacyTag p.2.2)))

/-- The list comprehension of `_tag_simple_rules` (line 446): the first
word to raise would propagate its exception. -/
def tagWordsSimple : List String → Except PyErr (List (String × String))
  | [] => .ok []
  | w :: ws =>
    match getSimplePosTag w with
    | .error e => .error e
    | .ok tg =>
      match tagWordsSimple ws with
      | .error e => .error e
      | .ok r => .ok ((w, tg) :: r)

/-- `_tag_simple_rules` (lines 443-446). -/
def tagSimpleRules (s : String) : Except PyErr (List (String × String)) :=
  tagWordsSimple (pySplit s)

/-- `_tag_transformer` (lines 351-367): runs the pipeline for its
success/failure only, then tags every split word with
`_get_simple_pos_tag`. -/
def tagTransformer (env : Env) (t : TaggerState) (s : String) :
    Except PyErr (List (String × String)) :=
  match t.transformerPipeline with
  | none => .error .attributeError
  | some _ =>
    match env.transformerRun s with
    | .error e => .error e
    | .ok _ => tagSimpleRules s

/-- `_tag_enhanced_simulation` (lines 280-289); total. -/
def tagEnhancedSimulation (s : String) : List (String × String) :=
  (pySplit s).map (fun w => (w, getEnhancedPosTag w))

/-- The alignment match test of `_tag_fine_tuned` (line 249):
case-insensitive substring in either direction. -/
def matchEntry (word : String) (e : Entry) : Bool :=
  pyInStr (pyLowerStr word) (pyLowerStr e.word)
    || pyInStr (pyLowerStr e.word) (pyLowerStr word)

/-- Label decoding of `_tag_fine_tuned` (lines 256-261): take the part after
the last `'_'` of `entity_group` (when one occurs), look it up in `id2tag`,
and fall back to the raw `entity_group`. -/
def labelToTag (id2tag : List (String × String)) (e : Entry) : String :=
  let g := e.entity_group
  let labelId := if g.data.contains '_' then (g.splitOn "_").getLastD g else g
  match List.lookup labelId id2tag with
  | some tg => tg
  | none => g

/-- The inner scan of `_tag_fine_tuned` (lines 247-252):
`enumerate(results[result_idx:], result_idx)` with first-match break. -/
def findFrom (word : String) : List Entry → Nat → Option (Nat × Entry)
  | [], _ => none
  | e :: rest, i => if matchEntry word e then some (i, e) else findFrom word rest (i + 1)

/-- The word loop of `_tag_fine_tuned` (lines 243-268), with the
`result_idx` cursor into the full `results` list. -/
def tagWordsFT (id2tag : List (String × String)) (results : List Entry) :
    List String → Nat → List (String × String)
  | [], _ => []
  | w :: ws, residx =>
    if residx < results.length then
      match findFrom w (results.drop residx) residx with
      | some (i, e) => (w, labelToTag id2tag e) :: tagWordsFT id2tag results ws (i + 1)
      | none => (w, getEnhancedPosTag w) :: tagWordsFT id2tag results ws residx
    else (w, getEnhancedPosTag w) :: tagWordsFT id2tag results ws residx

/-- The body of `_tag_fine_tuned`'s `try` (lines 230-273). Reading the
unset pipeline attribute (`AttributeError`) and the simulation branch both
produce the enhanced-simulation output once the surrounding handler is
applied, see `tagFineTuned`; `self.fine_tuned_metadata['id2tag']` on the
initial `None` raises `TypeError`. -/
def tagFineTunedBody (env : Env) (t : TaggerState) (s : String) :
    Except PyErr (List (String × String)) :=
  match t.fineTunedPipeline with
  | none => .ok (tagEnhancedSimulation s)
  | some _ =>
    match env.ftPipelineRun s with
    | .error e => .error e
    | .ok results =>
      match t.fineTunedMetadata with
      | none => .error .typeError
      | some md => .ok (tagWordsFT md.id2tag results (pySplit s) 0)

/-- `_tag_fine_tuned` (lines 228-278): its own `except` converts any
exception into `_tag_enhanced_simulation` output, so it never raises. -/
def tagFineTuned (env : Env) (t : TaggerState) (s : String) :
    Except PyErr (List (String × String)) :=
  match tagFineTunedBody env t s with
  | .ok r => .ok r
  | .error _ => .ok (tagEnhancedSimulation s)

/-- The backend dispatch inside `tag`'s `try` (lines 196-202). -/
def tagDispatch (env : Env) (t : TaggerState) (s : String) :
    Except PyErr (List (String × String)) :=
  if t.modelType = "legacy" then tagLegacy env t s
  else if t.modelType = "fine_tuned" then tagFineTuned env t s
  else tagTransformer env t s

/-- `tag` (lines 180-206) for string input. (The `TypeError` raised on
non-string input at line 190 is outside this `String`-typed embedding.)
Blank input returns `[]`; any dispatch exception falls back to
`_tag_simple_rules`, whose own exception, if any, would propagate. -/
def tag (env : Env) (t : TaggerState) (s : String) :
    Except PyErr (List (String × String)) :=
  if pyStrip s = "" then .ok []
  else
    match tagDispatch env t s with
    | .ok r => .ok r
    | .error _ => tagSimpleRules s

/-! ## Specification-level definitions for the refinement claims -/

/-- Structural restatement of the fine-tuned alignment following the
claim's words: for each word in order, accept the first remaining entry
that matches, consume everything up to and including it, and fall back to
the enhanced rule tag when no remaining entry matches. -/
def splitAtMatch (w : String) : List Entry → Option (Entry × List Entry)
  | [] => none
  | e :: rest => if matchEntry w e then some (e, rest) else splitAtMatch w rest

/-- The claim's greedy first-match forward-only alignment, structurally
recursive on the word list with the remaining entries passed along. -/
def alignGreedy (id2tag : List (String × String)) :
    List String → List Entry → List (String × String)
  | [], _ => []
  | w :: ws, es =>
    match splitAtMatch w es with
    | some (e, rest) => (w, labelToTag id2tag e) :: alignGreedy id2tag ws rest
    | none => (w, getEnhancedPosTag w) :: alignGreedy id2tag ws es

/-- An ordered classification rule: a predicate on the word and the tag the
rule assigns when it is the first to match. -/
structure TagRule where
  applies : String → Bool
  tag : String

/-- First-match evaluation of an ordered rule list, with a default tag. -/
def evalRules (rules : List TagRule) (dflt : String) (w : String) : String :=
  match rules with
  | [] => dflt
  | r :: rest => if r.applies w then r.tag else evalRules rest dflt w

/-- The proper-noun branch condition of `_get_simple_pos_tag` (lines
380-382) as a total predicate (false on the empty word, where the code
would raise). -/
def properNounCond (w : String) : Bool :=
  properNounWords.contains (pyLowerStr w)
    || (match w.data with
        | [] => false
        | c :: _ => pyIsUpper c && decide (w.length > 2))

/-- The branches of `_get_simple_pos_tag` in the source's order, as an
explicit ordered rule list (default tag: `"Noun"`). -/
def simpleRuleList : List TagRule :=
  [⟨fun w => pyInStr w punctStr, "Punc"⟩,
   ⟨properNounCond, "Noun"⟩,
   ⟨fun w => simplePronounWords.contains (pyLowerStr w), "Pron"⟩,
   ⟨fun w => simpleConjWords.contains (pyLowerStr w), "Conj"⟩,
   ⟨fun w => simpleAdvWords.contains (pyLowerStr w), "Adv"⟩,
   ⟨fun w => postpWords.contains (pyLowerStr w), "Postp"⟩,
   ⟨fun w => detWords.contains (pyLowerStr w), "Det"⟩,
   ⟨fun w => pyIsDigitStr (pyLowerStr w) || numWords.contains (pyLowerStr w), "Num"⟩,
   ⟨fun w => simpleVerbCond (pyLowerStr w), "Verb"⟩,
   ⟨fun w => simpleAdjCond (pyLowerStr w), "Adj"⟩,
   ⟨fun w => commonNounWords.contains (pyLowerStr w), "Noun"⟩]

/-- The branches of `_get_enhanced_pos_tag` in the source's order
(default tag: `"Noun_Nom"`). -/
def enhancedRuleList : List TagRule :=
  [⟨fun w => pyInStr w punctStr, "Punc"⟩,
   ⟨fun w => enhPronounWords.contains (pyLowerStr w), "Pron"⟩,
   ⟨fun w => enhConjWords.contains (pyLowerStr w), "Conj"⟩,
   ⟨fun w => enhAdvWords.contains (pyLowerStr w), "Adv"⟩,
   ⟨fun w => postpWords.contains (pyLowerStr w), "Postp"⟩,
   ⟨fun w => enhVerbCond (pyLowerStr w), "Verb"⟩,
   ⟨fun w => endsWithAny (pyLowerStr w) ["ından", "inden", "undan", "ünden"], "Noun_Abl"⟩,
   ⟨fun w => endsWithAny (pyLowerStr w) ["ına", "ine", "una", "üne"], "Noun_Dat"⟩,
   ⟨fun w => endsWithAny (pyLowerStr w) ["ını", "ini", "unu", "ünü"], "Noun_Acc"⟩,
   ⟨fun w => endsWithAny (pyLowerStr w) ["ın", "in", "un", "ün"], "Noun_Gen"⟩,
   ⟨fun w => endsWithAny (pyLowerStr w) ["da", "de", "ta", "te"], "Noun_Loc"⟩,
   ⟨fun w => enhAdjCond (pyLowerStr w), "Adj"⟩]

/-- Modelled from the spec: the precedence order exactly as the claim
states it for the simple classifier — punctuation, then the closed-class
lists (pronoun, conjunction, adverb, postposition, determiner, number),
then verb suffixes, then adjectival suffixes, then the common-noun list,
then the default noun tag — omitting the proper-noun/capitalization branch
the claim does not mention. -/
def claimOrderSimpleTag (w : String) : String :=
  evalRules
    [⟨fun w => pyInStr w punctStr, "Punc"⟩,
     ⟨fun w => simplePronounWords.contains (pyLowerStr w), "Pron"⟩,
     ⟨fun w => simpleConjWords.contains (pyLowerStr w), "Conj"⟩,
     ⟨fun w => simpleAdvWords.contains (pyLowerStr w), "Adv"⟩,
     ⟨fun w => postpWords.contains (pyLowerStr w), "Postp"⟩,
     ⟨fun w => detWords.contains (pyLowerStr w), "Det"⟩,
     ⟨fun w => pyIsDigitStr (pyLowerStr w) || numWords.contains (pyLowerStr w), "Num"⟩,
     ⟨fun w => simpleVerbCond (pyLowerStr w), "Verb"⟩,
     ⟨fun w => simpleAdjCond (pyLowerStr w), "Adj"⟩,
     ⟨fun w => commonNounWords.contains (pyLowerStr w), "Noun"⟩]
    "Noun" w

/-! ## Auxiliary definitions for the theorems -/

/-- The lowercase letters `pyLower` produces whenever it changes a
character. -/
def lowerLetters : List Char := "abcdefghijklmnopqrstuvwxyzçğıöşü".data

/-- Whether the first character of a word is uppercase — the case-sensitive
ingredient of `_get_simple_pos_tag`'s capitalization branch (false on the
empty word). -/
def firstCharUpper (w : String) : Bool :=
  match w.data with
  | [] => false
  | c :: _ => pyIsUpper c

/-- A concrete environment with every external resource present and fixed
pipeline behaviour, used to instantiate the theorems. -/
def demoEnv : Env := {
  legacyFileExists := true
  legacyYamlLoad := .ok true
  ftDirExists := true
  ftMetadataFileExists := true
  ftMetadataLoad := .ok { id2tag := [("5", "Verb")], evalFieldsOk := true }
  ftWeightsExist := true
  ftPipelineCreate := .ok ()
  transformerCreate := .ok ()
  transformerRun := fun _ => .ok []
  ftPipelineRun := fun _ => .ok [{ word := "geliyor", entity_group := "LABEL_5" },
                                 { word := "##du", entity_group := "LABEL_9" }]
  brillTag := fun w => [(w, some "NOUN")] }

/-- A concrete environment in which no external resource is loadable. -/
def noResourceEnv : Env := {
  legacyFileExists := false
  legacyYamlLoad := .error .fileNotFoundError
  ftDirExists := false
  ftMetadataFileExists := false
  ftMetadataLoad := .error .fileNotFoundError
  ftWeightsExist := false
  ftPipelineCreate := .error .otherError
  transformerCreate := .error .otherError
  transformerRun := fun _ => .error .otherError
  ftPipelineRun := fun _ => .error .otherError
  brillTag := fun _ => [] }

/-- Transformer construction fails but the legacy artifact is loadable. -/
def fallbackEnv : Env := { noResourceEnv with
  legacyFileExists := true
  legacyYamlLoad := .ok true }

/-- A fully loaded fine-tuned backend state (weights present). -/
def ftState : TaggerState := {
  modelType := "fine_tuned"
  fineTunedPipeline := some ()
  fineTunedMetadata := some { id2tag := [("5", "Verb")], evalFieldsOk := true } }

/-- A loaded transformer-backend state. -/
def trState : TaggerState := { modelType := "berturk", transformerPipeline := some () }

/-- A state whose selector is an arbitrary unrecognized string. -/
def bogusState : TaggerState := { modelType := "bogus" }

/-! ## Character-level lemmas -/

theorem lookup_mem {α β : Type} [BEq α] [LawfulBEq α] {l : List (α × β)} {a : α}
    {b : β} (h : List.lookup a l = some b) : (a, b) ∈ l := by
  induction l with
  | nil => cases h
  | cons p t ih =>
    obtain ⟨k, v⟩ := p
    rw [List.lookup] at h
    by_cases hab : (a == k) = true
    · rw [hab] at h
      have hak : a = k := eq_of_beq hab
      subst hak
      cases h
      exact List.mem_cons_self _ _
    · simp only [Bool.not_eq_true] at hab
      rw [hab] at h
      exact List.mem_cons_of_mem _ (ih h)

theorem pyLower_cases (c : Char) : pyLower c = c ∨ pyLower c ∈ lowerLetters := by
  unfold pyLower
  cases hl : List.lookup c lowerTable with
  | none => exact Or.inl rfl
  | some v =>
    refine Or.inr ?_
    have hmem : (c, v) ∈ lowerTable := lookup_mem hl
    have : ∀ p ∈ lowerTable, p.2 ∈ lowerLetters := by decide
    simpa using this _ hmem

theorem punct_fixed : ∀ c ∈ punctStr.data, pyLower c = c := by decide

theorem lowerLetters_not_punct : ∀ c ∈ lowerLetters, c ∉ punctStr.data := by decide

theorem pyLower_mem_punct {c : Char} (h : pyLower c ∈ punctStr.data) : pyLower c = c := by
  rcases pyLower_cases c with h1 | h1
  · exact h1
  · exact absurd h (lowerLetters_not_punct _ h1)

theorem isPrefixOf_mem {l hay : List Char} (hp : l.isPrefixOf hay = true) :
    ∀ c ∈ l, c ∈ hay := by
  intro c hc
  exact (List.isPrefixOf_iff_prefix.mp hp).subset hc

theorem isSubstring_mem {l : List Char} (hay : List Char)
    (h : isSubstring l hay = true) : ∀ c ∈ l, c ∈ hay := by
  induction hay with
  | nil =>
    unfold isSubstring at h
    rw [List.isEmpty_iff] at h
    subst h
    intro c hc
    cases hc
  | cons d t ih =>
    unfold isSubstring at h
    rw [Bool.or_eq_true] at h
    intro c hc
    cases h with
    | inl hp => exact isPrefixOf_mem hp c hc
    | inr hs => exact List.mem_cons_of_mem d (ih hs c hc)

theorem map_pyLower_of_punct {l : List Char} (h : ∀ c ∈ l, c ∈ punctStr.data) :
    l.map pyLower = l := by
  induction l with
  | nil => rfl
  | cons c t ih =>
    simp only [List.map_cons]
    rw [punct_fixed c (h c (List.mem_cons_self c t)),
        ih (fun x hx => h x (List.mem_cons_of_mem c hx))]

theorem eq_of_map_pyLower_eq_punct {l' : List Char} :
    ∀ {l : List Char}, l'.map pyLower = l → (∀ c ∈ l, c ∈ punctStr.data) → l' = l := by
  induction l' with
  | nil =>
    intro l h _
    simpa using h.symm
  | cons a t ih =>
    intro l h hmem
    cases l with
    | nil => simp at h
    | cons b u =>
      simp only [List.map_cons, List.cons.injEq] at h
      obtain ⟨h1, h2⟩ := h
      have hb : b ∈ punctStr.data := hmem b (List.mem_cons_self b u)
      have hfix : pyLower a = a := pyLower_mem_punct (h1 ▸ hb)
      have ha : a = b := hfix.symm.trans h1
      have ht : t = u := ih h2 (fun x hx => hmem x (List.mem_cons_of_mem b hx))
      rw [ha, ht]

theorem pyInStr_punct_transfer {w w' : String}
    (hdata : w.data.map pyLower = w'.data.map pyLower)
    (hw : pyInStr w punctStr = true) : pyInStr w' punctStr = true := by
  have hmem : ∀ c ∈ w.data, c ∈ punctStr.data := isSubstring_mem _ hw
  have hfix : w.data.map pyLower = w.data := map_pyLower_of_punct hmem
  have heq : w'.data = w.data :=
    eq_of_map_pyLower_eq_punct (hdata.symm.trans hfix) hmem
  unfold pyInStr at hw ⊢
  rw [heq]
  exact hw

/-- Words with the same Python-lowercasing agree on the punctuation test:
punctuation characters are fixed by lowering and are not produced by it. -/
theorem pyInStr_punct_congr {w w' : String} (h : pyLowerStr w = pyLowerStr w') :
    pyInStr w punctStr = pyInStr w' punctStr := by
  have hdata : w.data.map pyLower = w'.data.map pyLower := congrArg String.data h
  by_cases h1 : pyInStr w punctStr = true
  · rw [h1, pyInStr_punct_transfer hdata h1]
  · by_cases h2 : pyInStr w' punctStr = true
    · exact absurd (pyInStr_punct_transfer hdata.symm h2) h1
    · simp only [Bool.not_eq_true] at h1 h2
      rw [h1, h2]

/-! ## Totality of the simple classifier -/

theorem getSimplePosTagRest_ne_empty (wl : String) : getSimplePosTagRest wl ≠ "" := by
  unfold getSimplePosTagRest
  repeat' split
  all_goals decide

theorem pyInStr_empty (hay : String) (h : hay ≠ "") : pyInStr "" hay = true := by
  unfold pyInStr isSubstring
  cases hh : hay.data with
  | nil => exact absurd (String.ext hh) h
  | cons c t => simp [List.isPrefixOf]

/-- `_get_simple_pos_tag` never raises: the only partial operation,
`word[0]`, is shielded by the substring test `word in '...'`, which is true
for the empty word. -/
theorem getSimplePosTag_ok (w : String) :
    ∃ tg, getSimplePosTag w = .ok tg ∧ tg ≠ "" := by
  unfold getSimplePosTag
  by_cases h1 : pyInStr w punctStr = true
  · rw [if_pos h1]
    exact ⟨"Punc", rfl, by decide⟩
  · rw [if_neg h1]
    by_cases h2 : properNounWords.contains (pyLowerStr w) = true
    · rw [if_pos h2]
      exact ⟨"Noun", rfl, by decide⟩
    · rw [if_neg h2]
      cases hd : w.data with
      | nil =>
        have hw0 : w = "" := String.ext hd
        rw [hw0] at h1
        exact absurd (by decide) h1
      | cons c cs =>
        dsimp only
        by_cases h3 : (pyIsUpper c && decide (w.length > 2)) = true
        · rw [if_pos h3]
          exact ⟨"Noun", rfl, by decide⟩
        · rw [if_neg h3]
          exact ⟨getSimplePosTagRest (pyLowerStr w), rfl,
            getSimplePosTagRest_ne_empty _⟩

/-! ## Words produced by `pySplit` are non-empty -/

theorem splitWsAux_mem_ne (cs : List Char) :
    ∀ (acc : List Char) (w : String), w ∈ splitWsAux cs acc → w.data ≠ [] := by
  induction cs with
  | nil =>
    intro acc w hw
    unfold splitWsAux at hw
    by_cases ha : acc.isEmpty = true
    · rw [if_pos ha] at hw
      cases hw
    · rw [if_neg ha] at hw
      have hww : w = String.mk acc.reverse := List.mem_singleton.mp hw
      subst hww
      intro hcon
      rw [List.reverse_eq_nil_iff] at hcon
      rw [List.isEmpty_iff] at ha
      exact ha hcon
  | cons c t ih =>
    intro acc w hw
    unfold splitWsAux at hw
    by_cases hsp : pyIsSpace c = true
    · rw [if_pos hsp] at hw
      by_cases ha : acc.isEmpty = true
      · rw [if_pos ha] at hw
        exact ih [] w hw
      · rw [if_neg ha] at hw
        rcases List.mem_cons.mp hw with hww | hw2
        · subst hww
          intro hcon
          rw [List.reverse_eq_nil_iff] at hcon
          rw [List.isEmpty_iff] at ha
          exact ha hcon
        · exact ih [] w hw2
    · rw [if_neg hsp] at hw
      exact ih (c :: acc) w hw

theorem pySplit_mem_ne {s w : String} (hw : w ∈ pySplit s) : w ≠ "" := by
  intro hcon
  exact splitWsAux_mem_ne s.data [] w hw (by rw [hcon])

/-! ## Length lemmas: one tagged pair per split word, for every backend -/

theorem tagWordsSimple_ok (ws : List String) :
    ∃ r, tagWordsSimple ws = .ok r ∧ r.length = ws.length := by
  induction ws with
  | nil => exact ⟨[], rfl, rfl⟩
  | cons w t ih =>
    obtain ⟨tg, htg, _⟩ := getSimplePosTag_ok w
    obtain ⟨r, hr, hlen⟩ := ih
    refine ⟨(w, tg) :: r, ?_, by simp only [List.length_cons, hlen]⟩
    unfold tagWordsSimple
    rw [htg, hr]

theorem tagSimpleRules_ok (s : String) :
    ∃ r, tagSimpleRules s = .ok r ∧ r.length = (pySplit s).length :=
  tagWordsSimple_ok (pySplit s)

theorem tagEnhancedSimulation_length (s : String) :
    (tagEnhancedSimulation s).length = (pySplit s).length := by
  simp [tagEnhancedSimulation]

theorem tagWordsFT_length (id2tag : List (String × String)) (results : List Entry) :
    ∀ (ws : List String) (residx : Nat),
      (tagWordsFT id2tag results ws residx).length = ws.length := by
  intro ws
  induction ws with
  | nil => intro residx; rfl
  | cons w t ih =>
    intro residx
    unfold tagWordsFT
    by_cases h1 : residx < results.length
    · rw [if_pos h1]
      cases hf : findFrom w (results.drop residx) residx with
      | none => simp [ih]
      | some p =>
        obtain ⟨i, e⟩ := p
        simp [ih]
    · rw [if_neg h1]
      simp [ih]

theorem tagFineTuned_ok (env : Env) (t : TaggerState) (s : String) :
    ∃ r, tagFineTuned env t s = .ok r ∧ r.length = (pySplit s).length := by
  unfold tagFineTuned tagFineTunedBody
  cases hp : t.fineTunedPipeline with
  | none => exact ⟨tagEnhancedSimulation s, rfl, tagEnhancedSimulation_length s⟩
  | some u =>
    cases hr : env.ftPipelineRun s with
    | error e => exact ⟨tagEnhancedSimulation s, rfl, tagEnhancedSimulation_length s⟩
    | ok results =>
      cases hm : t.fineTunedMetadata with
      | none => exact ⟨tagEnhancedSimulation s, rfl, tagEnhancedSimulation_length s⟩
      | some md =>
        exact ⟨tagWordsFT md.id2tag results (pySplit s) 0, rfl,
          tagWordsFT_length md.id2tag results (pySplit s) 0⟩

theorem tagLegacy_length (env : Env) (t : TaggerState) (s : String)
    (r : List (String × String)) (h : tagLegacy env t s = .ok r) :
    r.length = (pySplit s).length := by
  unfold tagLegacy at h
  cases hl : t.legacyTagger with
  | none => rw [hl] at h; cases h
  | some u =>
    rw [hl] at h
    dsimp only at h
    cases h
    simp

theorem tagTransformer_length (env : Env) (t : TaggerState) (s : String)
    (r : List (String × String)) (h : tagTransformer env t s = .ok r) :
    r.length = (pySplit s).length := by
  unfold tagTransformer at h
  cases hp : t.transformerPipeline with
  | none => rw [hp] at h; cases h
  | some u =>
    rw [hp] at h
    cases hr : env.transformerRun s with
    | error e => rw [hr] at h; cases h
    | ok res =>
      rw [hr] at h
      dsimp only at h
      obtain ⟨r', hr', hlen⟩ := tagSimpleRules_ok s
      rw [hr'] at h
      cases h
      exact hlen

theorem tagDispatch_length (env : Env) (t : TaggerState) (s : String)
    (r : List (String × String)) (h : tagDispatch env t s = .ok r) :
    r.length = (pySplit s).length := by
  unfold tagDispatch at h
  by_cases h1 : t.modelType = "legacy"
  · rw [if_pos h1] at h
    exact tagLegacy_length env t s r h
  · rw [if_neg h1] at h
    by_cases h2 : t.modelType = "fine_tuned"
    · rw [if_pos h2] at h
      obtain ⟨r', hr', hlen⟩ := tagFineTuned_ok env t s
      rw [hr'] at h
      cases h
      exact hlen
    · rw [if_neg h2] at h
      exact tagTransformer_length env t s r h

/-! ## Blank input -/

theorem pyStrip_eq_empty_iff (s : String) :
    pyStrip s = "" ↔ ∀ c ∈ s.data, pyIsSpace c = true := by
  unfold pyStrip
  constructor
  · intro h
    have hl : ((s.data.dropWhile pyIsSpace).reverse.dropWhile pyIsSpace).reverse = [] :=
      congrArg String.data h
    rw [List.reverse_eq_nil_iff, List.dropWhile_eq_nil_iff] at hl
    intro c hc
    have hc2 : c ∈ s.data.takeWhile pyIsSpace ++ s.data.dropWhile pyIsSpace := by
      rw [List.takeWhile_append_dropWhile]
      exact hc
    rcases List.mem_append.mp hc2 with h1 | h1
    · exact List.mem_takeWhile_imp h1
    · exact hl c (List.mem_reverse.mpr h1)
  · intro h
    have h1 : s.data.dropWhile pyIsSpace = [] := List.dropWhile_eq_nil_iff.mpr h
    rw [h1]
    rfl

theorem splitWsAux_all_space (cs : List Char) (h : ∀ c ∈ cs, pyIsSpace c = true) :
    splitWsAux cs [] = [] := by
  induction cs with
  | nil => rfl
  | cons c t ih =>
    unfold splitWsAux
    rw [if_pos (h c (List.mem_cons_self c t))]
    show splitWsAux t [] = []
    exact ih (fun x hx => h x (List.mem_cons_of_mem c hx))

theorem pySplit_blank {s : String} (h : pyStrip s = "") : pySplit s = [] :=
  splitWsAux_all_space s.data ((pyStrip_eq_empty_iff s).mp h)

/-! ## The fine-tuned cursor loop matches the structural greedy alignment -/

theorem findFrom_none {w : String} :
    ∀ (es : List Entry) (i0 : Nat), splitAtMatch w es = none → findFrom w es i0 = none := by
  intro es
  induction es with
  | nil => intro i0 _; rfl
  | cons e t ih =>
    intro i0 hs
    unfold splitAtMatch at hs
    unfold findFrom
    by_cases hm : matchEntry w e = true
    · rw [if_pos hm] at hs
      cases hs
    · rw [if_neg hm] at hs
      rw [if_neg hm]
      exact ih (i0 + 1) hs

theorem findFrom_some {w : String} :
    ∀ (es : List Entry) (i0 : Nat) (e : Entry) (rest : List Entry),
      splitAtMatch w es = some (e, rest) →
      ∃ k, findFrom w es i0 = some (i0 + k, e) ∧ rest = es.drop (k + 1) := by
  intro es
  induction es with
  | nil => intro i0 e rest hs; cases hs
  | cons e' t ih =>
    intro i0 e rest hs
    unfold splitAtMatch at hs
    unfold findFrom
    by_cases hm : matchEntry w e' = true
    · rw [if_pos hm] at hs
      cases hs
      refine ⟨0, ?_, rfl⟩
      rw [if_pos hm]
      rfl

    · rw [if_neg hm] at hs
      rw [if_neg hm]
      obtain ⟨k, hf, hr⟩ := ih (i0 + 1) e rest hs
      refine ⟨k + 1, ?_, ?_⟩
      · rw [hf]
        congr 2
        omega
      · rw [hr]
        rfl

theorem tagWordsFT_eq_alignGreedy (id2tag : List (String × String))
    (results : List Entry) :
    ∀ (ws : List String) (residx : Nat),
      tagWordsFT id2tag results ws residx
        = alignGreedy id2tag ws (results.drop residx) := by
  intro ws
  induction ws with
  | nil => intro residx; rfl
  | cons w t ih =>
    intro residx
    unfold tagWordsFT alignGreedy
    by_cases h1 : residx < results.length
    · rw [if_pos h1]
      cases hs : splitAtMatch w (results.drop residx) with
      | none =>
        rw [findFrom_none _ residx hs]
        dsimp only
        rw [ih residx]
      | some p =>
        obtain ⟨e, rest⟩ := p
        obtain ⟨k, hf, hr⟩ := findFrom_some _ residx e rest hs
        rw [hf]
        dsimp only
        rw [ih (residx + k + 1), hr, List.drop_drop, Nat.add_assoc]
    · rw [if_neg h1]
      have hdrop : results.drop residx = [] :=
        List.drop_eq_nil_of_le (Nat.le_of_not_lt h1)
      rw [hdrop]
      dsimp only [splitAtMatch]
      rw [ih residx, hdrop]

/-! ## Case-insensitivity of the classifiers -/

theorem getEnhancedPosTag_congr {w w' : String} (h : pyLowerStr w = pyLowerStr w') :
    getEnhancedPosTag w = getEnhancedPosTag w' := by
  unfold getEnhancedPosTag
  rw [pyInStr_punct_congr h, h]

theorem getSimplePosTag_congr {w w' : String} (h : pyLowerStr w = pyLowerStr w')
    (hu : firstCharUpper w = false) (hu' : firstCharUpper w' = false) :
    getSimplePosTag w = getSimplePosTag w' := by
  have hdata : w.data.map pyLower = w'.data.map pyLower := congrArg String.data h
  unfold getSimplePosTag
  rw [pyInStr_punct_congr h, h]
  unfold firstCharUpper at hu hu'
  cases hd : w.data with
  | nil =>
    cases hd' : w'.data with
    | nil => rfl
    | cons c' cs' =>
      rw [hd, hd'] at hdata
      cases hdata
  | cons c cs =>
    cases hd' : w'.data with
    | nil =>
      rw [hd, hd'] at hdata
      cases hdata
    | cons c' cs' =>
      rw [hd] at hu
      rw [hd'] at hu'
      dsimp only at hu hu' ⊢
      rw [hu, hu']
      simp only [Bool.false_and]

/-! ## The classifiers evaluate an ordered rule list, first match wins -/

theorem evalRules_enhanced (w : String) :
    getEnhancedPosTag w = evalRules enhancedRuleList "Noun_Nom" w := by
  unfold getEnhancedPosTag getEnhancedPosTagRest enhancedRuleList
  simp only [evalRules]

theorem evalRules_simple (w : String) (hw : w ≠ "") :
    getSimplePosTag w = .ok (evalRules simpleRuleList "Noun" w) := by
  unfold getSimplePosTag getSimplePosTagRest simpleRuleList properNounCond
  simp only [evalRules]
  by_cases p1 : pyInStr w punctStr = true
  · rw [if_pos p1, if_pos p1]
  · rw [if_neg p1, if_neg p1]
    cases hd : w.data with
    | nil => exact absurd (String.ext hd) hw
    | cons c cs =>
      dsimp only
      by_cases p2 : properNounWords.contains (pyLowerStr w) = true
      · rw [if_pos p2]
        have hcond : (properNounWords.contains (pyLowerStr w)
            || pyIsUpper c && decide (w.length > 2)) = true := by rw [p2, Bool.true_or]
        rw [if_pos hcond]
      · rw [if_neg p2]
        simp only [Bool.not_eq_true] at p2
        by_cases p3 : (pyIsUpper c && decide (w.length > 2)) = true
        · rw [if_pos p3]
          have hcond : (properNounWords.contains (pyLowerStr w)
              || pyIsUpper c && decide (w.length > 2)) = true := by rw [p2, p3, Bool.false_or]
          rw [if_pos hcond]
        · rw [if_neg p3]
          simp only [Bool.not_eq_true] at p3
          have hcond : (properNounWords.contains (pyLowerStr w)
              || pyIsUpper c && decide (w.length > 2)) = false := by rw [p2, p3, Bool.false_or]
          rw [hcond, if_neg Bool.false_ne_true]

/-! ## Legacy loading marks the state as legacy -/

theorem loadLegacyModel_sets_legacy (env : Env) (t t1 : TaggerState)
    (h : loadLegacyModel env t = (t1, none)) : t1.modelType = "legacy" := by
  unfold loadLegacyModel at h
  by_cases h1 : (!env.legacyFileExists) = true
  · rw [if_pos h1] at h
    rw [Prod.mk.injEq] at h
    cases h.2
  · rw [if_neg h1] at h
    cases hy : env.legacyYamlLoad with
    | error e =>
      rw [hy] at h
      rw [Prod.mk.injEq] at h
      cases h.2
    | ok isBrill =>
      rw [hy] at h
      dsimp only at h
      by_cases h2 : (!isBrill) = true
      · rw [if_pos h2] at h
        rw [Prod.mk.injEq] at h
        cases h.2
      · rw [if_neg h2] at h
        rw [Prod.mk.injEq] at h
        rw [← h.1]

/-! ## Claim theorems -/

/-- Claim C1: for every string input, `tag` returns a result and does not
raise; any exception during backend dispatch is caught and the sentence is
re-tagged by the rule-based fallback, which itself cannot fail for string
input. (The `TypeError` on non-string input is outside this `String`-typed
embedding.) -/
theorem claim1_tag_never_raises (env : Env) (t : TaggerState) (s : String) :
    (∃ r, tag env t s = .ok r)
    ∧ (∃ r, tagSimpleRules s = .ok r)
    ∧ (∀ e, tagDispatch env t s = .error e → tag env t s = tagSimpleRules s) := by
  obtain ⟨rs, hrs, _⟩ := tagSimpleRules_ok s
  refine ⟨?_, ⟨rs, hrs⟩, ?_⟩
  · unfold tag
    by_cases hb : pyStrip s = ""
    · rw [if_pos hb]
      exact ⟨[], rfl⟩
    · rw [if_neg hb]
      cases hd : tagDispatch env t s with
      | ok r => exact ⟨r, rfl⟩
      | error e => exact ⟨rs, hrs⟩
  · intro e he
    unfold tag
    by_cases hb : pyStrip s = ""
    · rw [if_pos hb]
      unfold tagSimpleRules
      rw [pySplit_blank hb]
      rfl
    · rw [if_neg hb, he]

/-- Witness for C1 at a concrete input on which the dispatch raises
(`AttributeError` from the unset transformer pipeline). -/
theorem claim1_tag_never_raises_witness :
    (∃ r, tag noResourceEnv bogusState "ev" = .ok r)
    ∧ tag noResourceEnv bogusState "ev" = tagSimpleRules "ev" :=
  ⟨(claim1_tag_never_raises noResourceEnv bogusState "ev").1,
   (claim1_tag_never_raises noResourceEnv bogusState "ev").2.2 PyErr.attributeError rfl⟩

/-- Claim C2, counterexample: construction is not total — with no legacy
artifact and a failing transformer load, `__init__` raises for both the
transformer-pipeline selector and the serialized-model selector. -/
theorem claim2_construction_total_counterexample :
    (construct noResourceEnv "berturk").2 = some PyErr.fileNotFoundError
    ∧ (construct noResourceEnv "legacy").2 = some PyErr.fileNotFoundError :=
  ⟨rfl, rfl⟩

/-- Claim C2 (amended): on any load failure the facade falls back to
loading the serialized legacy model (not the parameterless rule-based
tagger); construction succeeds iff the requested backend loads or the
legacy model loads, and a successful fallback reports the identifier
`"legacy"`. -/
theorem claim2_construct_fallback_to_legacy (env : Env) (mt : String) :
    ((construct env mt).2 = none ↔
      ((loadAttempt env (initState mt)).2 = none
        ∨ (loadLegacyModel env (loadAttempt env (initState mt)).1).2 = none))
    ∧ (∀ e, (loadAttempt env (initState mt)).2 = some e →
        construct env mt = loadLegacyModel env (loadAttempt env (initState mt)).1)
    ∧ (∀ t1, loadLegacyModel env (loadAttempt env (initState mt)).1 = (t1, none) →
        t1.modelType = "legacy") := by
  unfold construct loadModel
  rcases hA : loadAttempt env (initState mt) with ⟨t1, err⟩
  cases err with
  | none =>
    dsimp only
    refine ⟨⟨fun _ => Or.inl rfl, fun _ => rfl⟩, ?_,
      fun t2 h2 => loadLegacyModel_sets_legacy env t1 t2 h2⟩
    intro e he
    cases he
  | some e =>
    dsimp only
    refine ⟨⟨fun h => Or.inr h, fun h => ?_⟩, fun e2 _ => rfl,
      fun t2 h2 => loadLegacyModel_sets_legacy env t1 t2 h2⟩
    rcases h with h | h
    · cases h
    · exact h

/-- Witness for C2's amended theorem: transformer load fails, the legacy
artifact loads, and the resulting facade reports `"legacy"`. -/
theorem claim2_construct_fallback_to_legacy_witness :
    construct fallbackEnv "berturk"
      = loadLegacyModel fallbackEnv (loadAttempt fallbackEnv (initState "berturk")).1
    ∧ (construct fallbackEnv "berturk").1.modelType = "legacy" :=
  ⟨(claim2_construct_fallback_to_legacy fallbackEnv "berturk").2.1 PyErr.otherError rfl,
   (claim2_construct_fallback_to_legacy fallbackEnv "berturk").2.2
     (construct fallbackEnv "berturk").1 rfl⟩

/-- Claim C3: for every backend and state, the tagged sequence returned by
`tag` has exactly one (word, tag) pair per whitespace-separated token of
the input. -/
theorem claim3_one_pair_per_split_word (env : Env) (t : TaggerState) (s : String) :
    (∃ r, tag env t s = .ok r ∧ r.length = (pySplit s).length)
    ∧ (∀ r, tagLegacy env t s = .ok r → r.length = (pySplit s).length)
    ∧ (∀ r, tagTransformer env t s = .ok r → r.length = (pySplit s).length)
    ∧ (∀ r, tagFineTuned env t s = .ok r → r.length = (pySplit s).length)
    ∧ (∀ r, tagSimpleRules s = .ok r → r.length = (pySplit s).length) := by
  refine ⟨?_, fun r h => tagLegacy_length env t s r h,
    fun r h => tagTransformer_length env t s r h, fun r h => ?_, fun r h => ?_⟩
  · unfold tag
    by_cases hb : pyStrip s = ""
    · rw [if_pos hb]
      refine ⟨[], rfl, ?_⟩
      rw [pySplit_blank hb]
      rfl
    · rw [if_neg hb]
      cases hd : tagDispatch env t s with
      | ok r => exact ⟨r, rfl, tagDispatch_length env t s r hd⟩
      | error e =>
        obtain ⟨r, hr, hl⟩ := tagSimpleRules_ok s
        exact ⟨r, hr, hl⟩
  · obtain ⟨r2, h2, hl⟩ := tagFineTuned_ok env t s
    rw [h2] at h
    injection h with h
    rw [← h]
    exact hl
  · obtain ⟨r2, h2, hl⟩ := tagSimpleRules_ok s
    rw [h2] at h
    injection h with h
    rw [← h]
    exact hl

/-- Witness for C3 at a three-token sentence on the transformer backend. -/
theorem claim3_one_pair_per_split_word_witness :
    (∃ r, tag demoEnv trState "Ali geliyor ." = .ok r
      ∧ r.length = (pySplit "Ali geliyor .").length)
    ∧ ([("Ali", "Noun"), ("geliyor", "Verb"), (".", "Punc")]
        : List (String × String)).length = (pySplit "Ali geliyor .").length :=
  ⟨(claim3_one_pair_per_split_word demoEnv trState "Ali geliyor .").1,
   (claim3_one_pair_per_split_word demoEnv trState "Ali geliyor .").2.2.2.2
     [("Ali", "Noun"), ("geliyor", "Verb"), (".", "Punc")] rfl⟩

/-- Claim C4: whenever the transformer pipeline call returns without
raising, the transformer backend's output equals the rule-based tagging of
the same sentence — the pipeline's output is never consulted. -/
theorem claim4_transformer_output_rule_based (env : Env) (t : TaggerState)
    (s : String) (results : List Entry)
    (hp : t.transformerPipeline = some ())
    (hr : env.transformerRun s = .ok results) :
    tagTransformer env t s = tagSimpleRules s := by
  unfold tagTransformer
  rw [hp]
  dsimp only
  rw [hr]

/-- Witness for C4 at a concrete sentence and pipeline run. -/
theorem claim4_transformer_output_rule_based_witness :
    tagTransformer demoEnv trState "Ali geliyor ." = tagSimpleRules "Ali geliyor ." :=
  claim4_transformer_output_rule_based demoEnv trState "Ali geliyor ." [] rfl rfl

/-- Claim C5, counterexample: the claim's stated precedence order
(punctuation, then the pronoun list, ...) omits the simple classifier's
proper-noun/capitalization branch; on "Ben" the code returns "Noun" via the
capitalization branch while the claim's order yields "Pron". -/
theorem claim5_precedence_counterexample :
    getSimplePosTag "Ben" = .ok "Noun"
    ∧ claimOrderSimpleTag "Ben" = "Pron"
    ∧ ("Noun" : String) ≠ "Pron" :=
  ⟨rfl, rfl, by decide⟩

/-- Claim C5 (amended): each classifier evaluates an explicit ordered rule
list, first match wins — for the simple classifier the order is
punctuation, proper-noun list / capitalization, pronoun, conjunction,
adverb, postposition, determiner, number, verb suffixes, adjectival
suffixes, common-noun list, default noun; for the enhanced one it is
punctuation, pronoun, conjunction, adverb, postposition, verb suffixes,
nominal-case suffixes (ablative/dative/accusative/genitive/locative),
adjectival suffixes, default nominative noun. -/
theorem claim5_rule_order_amended (w : String) (hw : w ≠ "") :
    getSimplePosTag w = .ok (evalRules simpleRuleList "Noun" w)
    ∧ getEnhancedPosTag w = evalRules enhancedRuleList "Noun_Nom" w :=
  ⟨evalRules_simple w hw, evalRules_enhanced w⟩

/-- Witness for C5's amended theorem at the word of the counterexample. -/
theorem claim5_rule_order_amended_witness :
    getSimplePosTag "Ben" = .ok (evalRules simpleRuleList "Noun" "Ben")
    ∧ getEnhancedPosTag "Ben" = evalRules enhancedRuleList "Noun_Nom" "Ben" :=
  claim5_rule_order_amended "Ben" (by decide)

/-- Claim C6, counterexample: the simple rule classifier is not
case-insensitive — "Güzel" and "güzel" are casing variants but receive
different tags ("Noun" via the capitalization branch vs "Adj"). -/
theorem claim6_case_insensitive_counterexample :
    pyLowerStr "Güzel" = pyLowerStr "güzel"
    ∧ getSimplePosTag "Güzel" = .ok "Noun"
    ∧ getSimplePosTag "güzel" = .ok "Adj" :=
  ⟨rfl, rfl, rfl⟩

/-- Claim C6 (amended): both rule classifiers are pure functions of the
single word string; the enhanced classifier is fully case-insensitive, and
the simple classifier agrees on casing variants whenever neither variant's
first character is uppercase (its capitalization branch is the only
case-sensitive ingredient). -/
theorem claim6_pure_function_amended (w w' : String)
    (h : pyLowerStr w = pyLowerStr w') :
    getEnhancedPosTag w = getEnhancedPosTag w'
    ∧ (firstCharUpper w = false → firstCharUpper w' = false →
        getSimplePosTag w = getSimplePosTag w') :=
  ⟨getEnhancedPosTag_congr h, fun hu hu' => getSimplePosTag_congr h hu hu'⟩

/-- Witness for C6's amended theorem at the casing variants "eV" / "ev". -/
theorem claim6_pure_function_amended_witness :
    getEnhancedPosTag "eV" = getEnhancedPosTag "ev"
    ∧ getSimplePosTag "eV" = getSimplePosTag "ev" :=
  ⟨(claim6_pure_function_amended "eV" "ev" rfl).1,
   (claim6_pure_function_amended "eV" "ev" rfl).2 rfl rfl⟩

/-- Claim C7: with weights present, the fine-tuned backend performs greedy
first-match forward-only alignment of pipeline entries to whitespace words:
first matching remaining entry wins, its label is decoded through the
metadata id-to-tag table (raw label on a missed lookup), the cursor
advances past it, and words without a match (or with entries exhausted)
get the enhanced rule-based tag. -/
theorem claim7_greedy_alignment (env : Env) (t : TaggerState) (s : String)
    (md : Metadata) (results : List Entry)
    (hp : t.fineTunedPipeline = some ())
    (hm : t.fineTunedMetadata = some md)
    (hr : env.ftPipelineRun s = .ok results) :
    tagFineTuned env t s = .ok (alignGreedy md.id2tag (pySplit s) results) := by
  unfold tagFineTuned tagFineTunedBody
  rw [hp]
  dsimp only
  rw [hr]
  dsimp only
  rw [hm]
  dsimp only
  rw [tagWordsFT_eq_alignGreedy, List.drop_zero]

/-- Witness for C7 at a concrete pipeline output. -/
theorem claim7_greedy_alignment_witness :
    tagFineTuned demoEnv ftState "Ali geliyor okula"
      = .ok (alignGreedy [("5", "Verb")] (pySplit "Ali geliyor okula")
          [{ word := "geliyor", entity_group := "LABEL_5" },
           { word := "##du", entity_group := "LABEL_9" }]) :=
  claim7_greedy_alignment demoEnv ftState "Ali geliyor okula"
    { id2tag := [("5", "Verb")], evalFieldsOk := true }
    [{ word := "geliyor", entity_group := "LABEL_5" },
     { word := "##du", entity_group := "LABEL_9" }] rfl rfl rfl

/-- Claim C8: empty or all-whitespace input returns the empty sequence,
independently of environment and loaded backend (so without consulting
any backend). -/
theorem claim8_blank_input_empty (env : Env) (t : TaggerState) (s : String)
    (h : ∀ c ∈ s.data, pyIsSpace c = true) :
    tag env t s = .ok [] := by
  unfold tag
  rw [if_pos ((pyStrip_eq_empty_iff s).mpr h)]

/-- Witness for C8 at a whitespace-only input. -/
theorem claim8_blank_input_empty_witness :
    tag demoEnv trState " \t " = .ok [] :=
  claim8_blank_input_empty demoEnv trState " \t " (by decide)

/-- Claim C9: every selector string other than "legacy" and "fine_tuned"
is silently treated as the transformer backend, both at load time and at
dispatch time. -/
theorem claim9_unknown_selector_transformer (env : Env) (t : TaggerState)
    (s : String) (h1 : t.modelType ≠ "legacy") (h2 : t.modelType ≠ "fine_tuned") :
    loadAttempt env t = loadTransformerModel env t
    ∧ tagDispatch env t s = tagTransformer env t s := by
  constructor
  · unfold loadAttempt
    rw [if_neg h1, if_neg h2]
  · unfold tagDispatch
    rw [if_neg h1, if_neg h2]

/-- Witness for C9 at the arbitrary selector "bogus". -/
theorem claim9_unknown_selector_transformer_witness :
    loadAttempt demoEnv bogusState = loadTransformerModel demoEnv bogusState
    ∧ tagDispatch demoEnv bogusState "ev" = tagTransformer demoEnv bogusState "ev" :=
  claim9_unknown_selector_transformer demoEnv bogusState "ev" (by decide) (by decide)

/-- Claim C10: every word reaching the simple classifier through the
public interface comes from whitespace splitting and is therefore
non-empty, so `word[0]` is in bounds; on such words the classifier totally
returns a non-empty tag and the rule-based fallback never raises. -/
theorem claim10_split_words_safe (s w : String) (hw : w ∈ pySplit s) :
    w ≠ ""
    ∧ (∃ tg, getSimplePosTag w = .ok tg ∧ tg ≠ "")
    ∧ (∃ r, tagSimpleRules s = .ok r) := by
  obtain ⟨r, hr, _⟩ := tagSimpleRules_ok s
  exact ⟨pySplit_mem_ne hw, getSimplePosTag_ok w, ⟨r, hr⟩⟩

/-- Witness for C10 at a concrete split word. -/
theorem claim10_split_words_safe_witness :
    "Ali" ≠ ""
    ∧ (∃ tg, getSimplePosTag "Ali" = .ok tg ∧ tg ≠ "")
    ∧ (∃ r, tagSimpleRules "Ali geliyor" = .ok r) :=
  claim10_split_words_safe "Ali geliyor" "Ali" (by decide)

end POSTagger
